import Mathlib

/-!
Verification of the RCV post-processing / validation core
(`rcv_pipeline/utils/data_utils.py` and `rcv_pipeline/utils/validation_utils.py`).

The pandas DataFrames are embedded shallowly as lists of records.  Row order is
kept only up to the traversal order of the distinct election / candidate values
(pandas sorts group keys, we take them in order of appearance); every statement
proved below is invariant under row order.  The `name` and `percentage` columns
of the candidate table are omitted from the row model: the only operations on
them (the ffill/bfill in `compute_transfer_from_votes`, data_utils.py lines
103-107) touch no numeric field and no statement below concerns them.  Their
presence in the *schema* is tracked separately by the column-level model at the
end of the definitions section.
-/

/-- One raw candidate-round row, the input of `compute_transfer_from_votes`
(columns `election_id`, `candidate_id`, `round`, `votes`, `transfer`).
`election_id` is an `Option`: a NaN id (e.g. an id left unmapped by
`_standardize_election_ids`) is `none`.  `votes` is an `Option Int`: a missing
or non-numeric value (NaN after `pd.to_numeric(..., errors="coerce")`) is
`none`.  The raw `transfer` column is carried verbatim as text; the function
under study never reads it. -/
structure RawRec where
  election_id : Option Nat
  candidate_id : Nat
  round : Nat
  votes : Option Int
  transfer : String
deriving DecidableEq

/-- One reconstructed candidate-round row, the output of
`compute_transfer_from_votes` (grid keys, filled votes, computed transfer). -/
structure OutRec where
  election_id : Nat
  candidate_id : Nat
  round : Nat
  votes : Int
  transfer_calc : Int
deriving DecidableEq

/-- `df.groupby("election_id")`: the distinct non-null election ids
(pandas drops NaN group keys, hence the `filterMap`). -/
def electionsOf (df : List RawRec) : List Nat :=
  (df.filterMap (fun c => c.election_id)).dedup

/-- The rows of one election (`df[df["election_id"] == eid]`). -/
def electionRows (df : List RawRec) (eid : Nat) : List RawRec :=
  df.filter (fun c => decide (c.election_id = some eid))

/-- `df.groupby("election_id")["round"].max()` for one election.  The group is
non-empty whenever `eid ∈ electionsOf df`, so the default 0 of the fold is
never the value of a real maximum over rounds (which are at least the values
stored in the rows). -/
def maxRound (df : List RawRec) (eid : Nat) : Nat :=
  ((electionRows df eid).map (fun c => c.round)).foldr max 0

/-- `df.loc[df["election_id"]==eid, "candidate_id"].unique()`: the distinct
candidate ids of one election. -/
def candsOf (df : List RawRec) (eid : Nat) : List Nat :=
  ((electionRows df eid).map (fun c => c.candidate_id)).dedup

/-- The merge of the dense grid with
`df[cols_to_keep].drop_duplicates([election, cand, round])` followed by
`pd.to_numeric(votes).fillna(0)`: the votes of the first row carrying the key
(`drop_duplicates` keeps the first), with missing/NaN coerced to 0, and 0 when
the grid cell matches no row at all. -/
def lookupVotes (df : List RawRec) (eid cid r : Nat) : Int :=
  match df.find? (fun c =>
      decide (c.election_id = some eid ∧ c.candidate_id = cid ∧ c.round = r)) with
  | some c => c.votes.getD 0
  | none => 0

/-- `Series.diff()` positional difference, tail of a group: each entry minus
its predecessor, `prev` being the entry just before the sublist. -/
def diffAux (prev : Int) : List Int → List Int
  | [] => []
  | v :: vs => (v - prev) :: diffAux v vs

/-- `groupby(...).diff().fillna(0)`: the first entry of a group has no
predecessor (NaN) and becomes 0; the rest is the positional difference. -/
def diffFill : List Int → List Int
  | [] => []
  | v :: vs => 0 :: diffAux v vs

/-- The output block of one (election, candidate) pair: grid rounds
`range(1, rmax+1)`, merged votes and positional diff transfer, zipped back
into rows.  This is the contiguous group that
`sort_values([election, cand, round], kind="mergesort")` followed by
`groupby([election, cand])[votes].diff()` produces for the pair. -/
def candidateRows (df : List RawRec) (eid cid : Nat) : List OutRec :=
  let rounds := List.range' 1 (maxRound df eid)
  let vs := rounds.map (lookupVotes df eid cid)
  let ts := diffFill vs
  (rounds.zip (vs.zip ts)).map (fun p => ⟨eid, cid, p.1, p.2.1, p.2.2⟩)

/-- `compute_transfer_from_votes` (data_utils.py lines 54-124): the dense
election x candidate x round grid, with votes merged from the first matching
row (0 when absent) and `transfer_calc` the per-(election, candidate) vote
difference, 0 on the first round of every group. -/
def computeTransferFromVotes (df : List RawRec) : List OutRec :=
  (electionsOf df).flatMap (fun eid =>
    (candsOf df eid).flatMap (fun cid => candidateRows df eid cid))

/-- Sum of `transfer_calc` over the rows of one contest and one round in the
reconstructed output. -/
def roundTransferSum (df : List RawRec) (eid r : Nat) : Int :=
  (((computeTransferFromVotes df).filter
      (fun o => decide (o.election_id = eid ∧ o.round = r))).map
    (fun o => o.transfer_calc)).sum

/-- Sum of `votes` over the rows of one contest and one round in the
reconstructed output. -/
def roundVotesSum (df : List RawRec) (eid r : Nat) : Int :=
  (((computeTransferFromVotes df).filter
      (fun o => decide (o.election_id = eid ∧ o.round = r))).map
    (fun o => o.votes)).sum

-- ### generic list lemmas

theorem flatMap_eq_nil_of_forall {α β : Type} {l : List α} {f : α → List β}
    (h : ∀ a ∈ l, f a = []) : l.flatMap f = [] := by
  induction l with
  | nil => rfl
  | cons a as ih =>
    simp only [List.flatMap_cons]
    rw [h a (by simp), ih (fun b hb => h b (by simp [hb]))]
    rfl

theorem flatMap_eq_of_nodup {α β : Type} [DecidableEq α] {l : List α}
    {f : α → List β} {a : α} (hnd : l.Nodup) (ha : a ∈ l)
    (hother : ∀ b ∈ l, b ≠ a → f b = []) : l.flatMap f = f a := by
  induction l with
  | nil => cases ha
  | cons x xs ih =>
    rcases List.mem_cons.mp ha with rfl | hmem
    · have : xs.flatMap f = [] := by
        apply flatMap_eq_nil_of_forall
        intro b hb
        exact hother b (by simp [hb]) (fun hba => (List.nodup_cons.mp hnd).1 (hba ▸ hb))
      simp [List.flatMap_cons, this]
    · have hxa : x ≠ a := fun h => (List.nodup_cons.mp hnd).1 (h ▸ hmem)
      have hx : f x = [] := hother x (by simp) hxa
      simp only [List.flatMap_cons, hx, List.nil_append]
      exact ih (List.nodup_cons.mp hnd).2 hmem
        (fun b hb => hother b (by simp [hb]))

theorem flatMap_singleton_eq_map {α β : Type} (l : List α) (g : α → β) :
    l.flatMap (fun a => [g a]) = l.map g := by
  induction l with
  | nil => rfl
  | cons a as ih => simp [List.flatMap_cons, ih]

theorem filter_eq_singleton_of_nodup {α : Type} [DecidableEq α] {l : List α}
    {r : α} (hnd : l.Nodup) (hr : r ∈ l) :
    l.filter (fun x => decide (x = r)) = [r] := by
  induction l with
  | nil => cases hr
  | cons x xs ih =>
    rcases List.mem_cons.mp hr with rfl | hmem
    · have h0 : xs.filter (fun y => decide (y = r)) = [] := by
        rw [List.filter_eq_nil_iff]
        intro a ha
        simp only [decide_eq_true_eq]
        exact fun h => (List.nodup_cons.mp hnd).1 (h ▸ ha)
      simp [List.filter_cons, h0]
    · have hxr : x ≠ r := fun h => (List.nodup_cons.mp hnd).1 (h ▸ hmem)
      simp only [List.filter_cons, decide_eq_true_eq, if_neg hxr]
      exact ih (List.nodup_cons.mp hnd).2 hmem

theorem electionsOf_nodup (df : List RawRec) : (electionsOf df).Nodup :=
  List.nodup_dedup _

theorem candsOf_nodup (df : List RawRec) (eid : Nat) : (candsOf df eid).Nodup :=
  List.nodup_dedup _

theorem zip_self_map {α β : Type} (l : List α) (g : α → β) :
    l.zip (l.map g) = l.map (fun a => (a, g a)) := by
  induction l with
  | nil => rfl
  | cons a as ih => simp [ih]

theorem sum_map_sub {α : Type} (l : List α) (f g : α → Int) :
    (l.map (fun a => f a - g a)).sum = (l.map f).sum - (l.map g).sum := by
  induction l with
  | nil => simp
  | cons a as ih => simp [ih]; ring

-- ### the shape of one candidate block

theorem diffAux_map_range (f : Nat → Int) :
    ∀ (n a : Nat), diffAux (f a) ((List.range' (a+1) n).map f)
      = (List.range' (a+1) n).map (fun r => f r - f (r-1)) := by
  intro n
  induction n with
  | zero => intro a; rfl
  | succ m ih =>
    intro a
    rw [List.range'_succ]
    simp only [List.map_cons, diffAux]
    have := ih (a+1)
    rw [show a + 1 + 1 = a + 2 by omega] at this
    rw [this]
    simp

theorem diffFill_map_range (f : Nat → Int) (n : Nat) :
    diffFill ((List.range' 1 n).map f)
      = (List.range' 1 n).map (fun r => if r = 1 then 0 else f r - f (r-1)) := by
  cases n with
  | zero => rfl
  | succ m =>
    rw [List.range'_succ]
    simp only [List.map_cons, diffFill]
    have h := diffAux_map_range f m 1
    rw [show (1:Nat) + 1 = 2 by rfl] at h
    rw [h]
    have h2 : (List.range' 2 m).map (fun r => f r - f (r-1))
        = (List.range' 2 m).map (fun r => if r = 1 then (0:Int) else f r - f (r-1)) := by
      apply List.map_congr_left
      intro r hr
      have : 2 ≤ r := (List.mem_range'_1.mp hr).1
      rw [if_neg (by omega)]
    rw [h2]
    simp

/-- The rows of one (election, candidate) block, in closed form: one row per
round `1..rmax`, holding the looked-up votes and the round-1-is-0 vote delta. -/
theorem candidateRows_eq (df : List RawRec) (eid cid : Nat) :
    candidateRows df eid cid
      = (List.range' 1 (maxRound df eid)).map (fun r =>
          ⟨eid, cid, r, lookupVotes df eid cid r,
            if r = 1 then 0
            else lookupVotes df eid cid r - lookupVotes df eid cid (r-1)⟩) := by
  simp only [candidateRows]
  rw [diffFill_map_range, List.zip_map', zip_self_map, List.map_map]
  rfl

theorem mem_candidateRows {df : List RawRec} {eid cid : Nat} {o : OutRec}
    (h : o ∈ candidateRows df eid cid) :
    o.election_id = eid ∧ o.candidate_id = cid ∧ 1 ≤ o.round ∧
      o.round ≤ maxRound df eid := by
  rw [candidateRows_eq] at h
  rcases List.mem_map.mp h with ⟨r, hr, rfl⟩
  have h2 := List.mem_range'_1.mp hr
  refine ⟨rfl, rfl, ?_, ?_⟩
  · exact h2.1
  · show r ≤ maxRound df eid
    omega

-- ### locating one candidate block / one round slice in the full output

theorem filter_output_by_key (df : List RawRec) (eid cid : Nat)
    (h1 : eid ∈ electionsOf df) (h2 : cid ∈ candsOf df eid) :
    (computeTransferFromVotes df).filter
        (fun o => decide (o.election_id = eid ∧ o.candidate_id = cid))
      = candidateRows df eid cid := by
  unfold computeTransferFromVotes
  rw [List.filter_flatMap]
  rw [flatMap_eq_of_nodup (electionsOf_nodup df) h1 ?hother]
  case hother =>
    intro eid' _ hne
    rw [List.filter_eq_nil_iff]
    intro o ho
    rcases List.mem_flatMap.mp ho with ⟨cid', _, hmem⟩
    have := (mem_candidateRows hmem).1
    simp only [decide_eq_true_eq, not_and]
    intro h
    exact absurd (this ▸ h) hne
  rw [List.filter_flatMap]
  rw [flatMap_eq_of_nodup (candsOf_nodup df eid) h2 ?hcother]
  case hcother =>
    intro cid' _ hne
    rw [List.filter_eq_nil_iff]
    intro o ho
    have h := mem_candidateRows ho
    simp only [decide_eq_true_eq, not_and]
    intro _
    rw [h.2.1]
    exact hne
  rw [List.filter_eq_self]
  intro o ho
  have h := mem_candidateRows ho
  simp [h.1, h.2.1]

theorem filter_output_by_round (df : List RawRec) (eid r : Nat)
    (h1 : eid ∈ electionsOf df) (hr1 : 1 ≤ r) (hrn : r ≤ maxRound df eid) :
    (computeTransferFromVotes df).filter
        (fun o => decide (o.election_id = eid ∧ o.round = r))
      = (candsOf df eid).map (fun cid =>
          ⟨eid, cid, r, lookupVotes df eid cid r,
            if r = 1 then 0
            else lookupVotes df eid cid r - lookupVotes df eid cid (r-1)⟩) := by
  unfold computeTransferFromVotes
  rw [List.filter_flatMap]
  rw [flatMap_eq_of_nodup (electionsOf_nodup df) h1 ?hother]
  case hother =>
    intro eid' _ hne
    rw [List.filter_eq_nil_iff]
    intro o ho
    rcases List.mem_flatMap.mp ho with ⟨cid', _, hmem⟩
    have := (mem_candidateRows hmem).1
    simp only [decide_eq_true_eq, not_and]
    intro h
    exact absurd (this ▸ h) hne
  rw [List.filter_flatMap]
  have hone : ∀ cid ∈ candsOf df eid,
      (candidateRows df eid cid).filter (fun o => decide (o.election_id = eid ∧ o.round = r))
        = [⟨eid, cid, r, lookupVotes df eid cid r,
            if r = 1 then 0
            else lookupVotes df eid cid r - lookupVotes df eid cid (r-1)⟩] := by
    intro cid _
    rw [candidateRows_eq, List.filter_map]
    have hcongr : List.filter
        ((fun (o : OutRec) => decide (o.election_id = eid ∧ o.round = r)) ∘ (fun r' =>
          (⟨eid, cid, r', lookupVotes df eid cid r',
            if r' = 1 then 0
            else lookupVotes df eid cid r' - lookupVotes df eid cid (r'-1)⟩ : OutRec)))
        (List.range' 1 (maxRound df eid))
        = List.filter (fun r' => decide (r' = r)) (List.range' 1 (maxRound df eid)) := by
      apply List.filter_congr
      intro r' _
      simp
    rw [hcongr, filter_eq_singleton_of_nodup (List.nodup_range' 1 _)
      (List.mem_range'_1.mpr ⟨hr1, by omega⟩)]
    rfl
  rw [List.flatMap_congr hone, flatMap_singleton_eq_map]

/-- conservation skeleton, C1: in the dense reconstructed grid the per-round
transfer sum telescopes to the difference of consecutive round vote sums. -/
theorem claim_c1_conservation (df : List RawRec) (eid r : Nat)
    (h1 : eid ∈ electionsOf df) (h2 : 2 ≤ r) (h3 : r ≤ maxRound df eid) :
    roundTransferSum df eid r = roundVotesSum df eid r - roundVotesSum df eid (r-1) := by
  unfold roundTransferSum roundVotesSum
  rw [filter_output_by_round df eid r h1 (by omega) h3,
      filter_output_by_round df eid (r-1) h1 (by omega) (by omega)]
  rw [List.map_map, List.map_map, List.map_map]
  have ht : ((fun o : OutRec => o.transfer_calc) ∘ (fun cid =>
      (⟨eid, cid, r, lookupVotes df eid cid r,
        if r = 1 then 0
        else lookupVotes df eid cid r - lookupVotes df eid cid (r-1)⟩ : OutRec)))
      = fun cid => lookupVotes df eid cid r - lookupVotes df eid cid (r-1) := by
    funext cid
    simp only [Function.comp_apply]
    rw [if_neg (by omega)]
  rw [ht]
  rw [sum_map_sub]
  rfl

/-- round-1 invariant, C2: every round-1 record of the reconstructed grid has
transfer 0, and the whole reconstruction is unchanged under arbitrary
rewriting of the raw transfer column (the function never reads it). -/
theorem claim_c2_round_one (df : List RawRec) (g : RawRec → String) :
    (∀ o ∈ computeTransferFromVotes df, o.round = 1 → o.transfer_calc = 0) ∧
    computeTransferFromVotes (df.map (fun c => { c with transfer := g c }))
      = computeTransferFromVotes df := by
  constructor
  · intro o ho h1
    rcases List.mem_flatMap.mp ho with ⟨eid, _, hin⟩
    rcases List.mem_flatMap.mp hin with ⟨cid, _, hmem⟩
    rw [candidateRows_eq] at hmem
    rcases List.mem_map.mp hmem with ⟨r', _, rfl⟩
    have hr' : r' = 1 := h1
    show (if r' = 1 then 0
      else lookupVotes df eid cid r' - lookupVotes df eid cid (r'-1)) = 0
    rw [if_pos hr']
  · have helec : electionsOf (df.map (fun c => { c with transfer := g c }))
        = electionsOf df := by
      unfold electionsOf
      rw [List.filterMap_map]
      rfl
    have hrows : ∀ eid, electionRows (df.map (fun c => { c with transfer := g c })) eid
        = (electionRows df eid).map (fun c => { c with transfer := g c }) := by
      intro eid
      unfold electionRows
      rw [List.filter_map]
      rfl
    have hmax : ∀ eid, maxRound (df.map (fun c => { c with transfer := g c })) eid
        = maxRound df eid := by
      intro eid
      unfold maxRound
      rw [hrows, List.map_map]
      rfl
    have hcands : ∀ eid, candsOf (df.map (fun c => { c with transfer := g c })) eid
        = candsOf df eid := by
      intro eid
      unfold candsOf
      rw [hrows, List.map_map]
      rfl
    have hlook : ∀ eid cid r,
        lookupVotes (df.map (fun c => { c with transfer := g c })) eid cid r
          = lookupVotes df eid cid r := by
      intro eid cid r
      unfold lookupVotes
      rw [List.find?_map]
      have hcomp : ((fun c : RawRec =>
            decide (c.election_id = some eid ∧ c.candidate_id = cid ∧ c.round = r))
          ∘ (fun c => { c with transfer := g c }))
          = (fun c : RawRec =>
            decide (c.election_id = some eid ∧ c.candidate_id = cid ∧ c.round = r)) := rfl
      rw [hcomp]
      cases hf : df.find? (fun c =>
          decide (c.election_id = some eid ∧ c.candidate_id = cid ∧ c.round = r)) with
      | none => rfl
      | some c => rfl
    have hblock : ∀ eid cid,
        candidateRows (df.map (fun c => { c with transfer := g c })) eid cid
          = candidateRows df eid cid := by
      intro eid cid
      rw [candidateRows_eq, candidateRows_eq, hmax]
      apply List.map_congr_left
      intro r _
      simp only [hlook]
    unfold computeTransferFromVotes
    rw [helec]
    apply List.flatMap_congr
    intro eid _
    rw [hcands]
    apply List.flatMap_congr
    intro cid _
    rw [hblock]

/-- density, C3: for a candidate appearing anywhere in a contest, the rounds of
that (contest, candidate) pair in the reconstructed grid are exactly the list
1..round_count, hence gap-free and duplicate-free. -/
theorem claim_c3_density (df : List RawRec) (eid cid : Nat)
    (h1 : eid ∈ electionsOf df) (h2 : cid ∈ candsOf df eid) :
    (((computeTransferFromVotes df).filter
        (fun o => decide (o.election_id = eid ∧ o.candidate_id = cid))).map
      (fun o => o.round)) = List.range' 1 (maxRound df eid) := by
  rw [filter_output_by_key df eid cid h1 h2, candidateRows_eq, List.map_map]
  exact List.map_id _

-- ### concrete witness data for the grid claims

/-- A tiny contest: candidate 10 with votes 5 then 3, candidate 11 with votes
2 and no round-2 row (eliminated, zero-filled by the reconstruction). -/
def dfC1 : List RawRec :=
  [⟨some 1, 10, 1, some 5, ""⟩, ⟨some 1, 10, 2, some 3, ""⟩, ⟨some 1, 11, 1, some 2, ""⟩]

theorem claim_c1_conservation_witness :
    1 ∈ electionsOf dfC1 ∧ 2 ≤ 2 ∧ 2 ≤ maxRound dfC1 1 ∧
      roundTransferSum dfC1 1 2 = roundVotesSum dfC1 1 2 - roundVotesSum dfC1 1 1 :=
  ⟨by decide, by decide, by decide,
    claim_c1_conservation dfC1 1 2 (by decide) (by decide) (by decide)⟩

/-- One candidate over two rounds, with nonzero raw transfer text in round 1. -/
def dfC2 : List RawRec :=
  [⟨some 1, 10, 1, some 5, "+9"⟩, ⟨some 1, 10, 2, some 7, "+2"⟩]

theorem claim_c2_round_one_witness :
    ((⟨1, 10, 1, 5, 0⟩ : OutRec) ∈ computeTransferFromVotes dfC2 ∧
      (⟨1, 10, 1, 5, 0⟩ : OutRec).transfer_calc = 0) ∧
    computeTransferFromVotes (dfC2.map (fun c => { c with transfer := "X" }))
      = computeTransferFromVotes dfC2 :=
  ⟨⟨by decide,
    (claim_c2_round_one dfC2 (fun _ => "X")).1 ⟨1, 10, 1, 5, 0⟩ (by decide) (by decide)⟩,
    (claim_c2_round_one dfC2 (fun _ => "X")).2⟩

/-- Candidate 10 appears in rounds 1 and 3 only; the reconstruction must fill
round 2. -/
def dfC3 : List RawRec :=
  [⟨some 1, 10, 1, some 5, ""⟩, ⟨some 1, 10, 3, some 4, ""⟩]

theorem claim_c3_density_witness :
    1 ∈ electionsOf dfC3 ∧ 10 ∈ candsOf dfC3 1 ∧
      (((computeTransferFromVotes dfC3).filter
          (fun o => decide (o.election_id = 1 ∧ o.candidate_id = 10))).map
        (fun o => o.round)) = List.range' 1 (maxRound dfC3 1) :=
  ⟨by decide, by decide, claim_c3_density dfC3 1 10 (by decide) (by decide)⟩

-- ### candidate status (`_add_candidate_status`, data_utils.py lines 387-430)

/-- A candidate-round row after `_add_candidate_status`: the reconstructed row
plus the derived `status` column. -/
structure StatRec where
  election_id : Nat
  candidate_id : Nat
  round : Nat
  votes : Int
  transfer_calc : Int
  status : String
deriving DecidableEq

/-- `df[df["election_id"] == eid]` over reconstructed rows. -/
def statElectionRows (df : List OutRec) (eid : Nat) : List OutRec :=
  df.filter (fun c => decide (c.election_id = eid))

/-- `election_df["round"].max()`: the final round of a contest. -/
def finalRoundOf (df : List OutRec) (eid : Nat) : Nat :=
  ((statElectionRows df eid).map (fun c => c.round)).foldr max 0

/-- The contest's final-round rows. -/
def finalRoundRows (df : List OutRec) (eid : Nat) : List OutRec :=
  (statElectionRows df eid).filter (fun c => decide (c.round = finalRoundOf df eid))

/-- Python `max` over a list of ints; the empty case (never reached at the
call site, which is guarded by `len(final_round_df) > 0`) is given 0. -/
def intMax : List Int → Int
  | [] => 0
  | [v] => v
  | v :: w :: vs => max v (intMax (w :: vs))

/-- `final_round_df["votes"].max()`. -/
def maxVotesFinal (df : List OutRec) (eid : Nat) : Int :=
  intMax ((finalRoundRows df eid).map (fun c => c.votes))

/-- `winner_ids`: candidate ids of the final-round rows whose votes equal the
final-round maximum. -/
def winnerIds (df : List OutRec) (eid : Nat) : List Nat :=
  ((finalRoundRows df eid).filter
      (fun c => decide (c.votes = maxVotesFinal df eid))).map
    (fun c => c.candidate_id)

/-- The status the loop of `_add_candidate_status` writes into one row.  The
loop handles each election mask once; a row in the final round is Elected or
Eliminated by membership of its candidate id in `winner_ids`, every other row
is Continuing or Eliminated by its votes; the initial blanket `Continuing`
never survives because every row belongs to one of the two index sets. -/
def statusOf (df : List OutRec) (c : OutRec) : String :=
  if c.round = finalRoundOf df c.election_id then
    (if c.candidate_id ∈ winnerIds df c.election_id then "Elected" else "Eliminated")
  else if 0 < c.votes then "Continuing" else "Eliminated"

/-- `_add_candidate_status`: every row keeps its fields and gains the status
computed from its own election's rows. -/
def addCandidateStatus (df : List OutRec) : List StatRec :=
  df.map (fun c =>
    ⟨c.election_id, c.candidate_id, c.round, c.votes, c.transfer_calc, statusOf df c⟩)

/-- status derivation, C4: under uniqueness of the composite key
(contest, candidate, round) — the data-model invariant of the
CandidateRoundRecord collection — the final-round rows at maximal votes are
Elected, the other final-round rows Eliminated, and earlier rows Continuing
exactly when their votes are positive. -/
theorem claim_c4_status (df : List OutRec)
    (hkey : ∀ c1 ∈ df, ∀ c2 ∈ df,
      c1.election_id = c2.election_id → c1.candidate_id = c2.candidate_id →
        c1.round = c2.round → c1 = c2) :
    ∀ s ∈ addCandidateStatus df,
      (s.round = finalRoundOf df s.election_id →
        (s.votes = maxVotesFinal df s.election_id → s.status = "Elected") ∧
        (s.votes ≠ maxVotesFinal df s.election_id → s.status = "Eliminated")) ∧
      (s.round ≠ finalRoundOf df s.election_id →
        (0 < s.votes → s.status = "Continuing") ∧
        (s.votes ≤ 0 → s.status = "Eliminated")) := by
  intro s hs
  rcases List.mem_map.mp hs with ⟨c, hc, rfl⟩
  constructor
  · intro hfr
    have hfr' : c.round = finalRoundOf df c.election_id := hfr
    have hcfinal : c ∈ finalRoundRows df c.election_id := by
      apply List.mem_filter.mpr
      refine ⟨List.mem_filter.mpr ⟨hc, by simp⟩, by simp [hfr']⟩
    constructor
    · intro hv
      have hv' : c.votes = maxVotesFinal df c.election_id := hv
      show statusOf df c = "Elected"
      unfold statusOf
      rw [if_pos hfr', if_pos ?hw]
      case hw =>
        apply List.mem_map.mpr
        refine ⟨c, List.mem_filter.mpr ⟨hcfinal, by simp [hv']⟩, rfl⟩
    · intro hv
      have hv' : c.votes ≠ maxVotesFinal df c.election_id := hv
      show statusOf df c = "Eliminated"
      unfold statusOf
      rw [if_pos hfr', if_neg ?hnw]
      case hnw =>
        intro hmem
        rcases List.mem_map.mp hmem with ⟨w, hw, hwc⟩
        have hw1 := List.mem_filter.mp hw
        have hwv : w.votes = maxVotesFinal df c.election_id := by
          have := hw1.2
          simpa using this
        have hw2 := List.mem_filter.mp hw1.1
        have hwr : w.round = finalRoundOf df c.election_id := by
          have := hw2.2
          simpa using this
        have hw3 := List.mem_filter.mp hw2.1
        have hwe : w.election_id = c.election_id := by
          have := hw3.2
          simpa using this
        have : w = c := hkey w hw3.1 c hc hwe hwc (by rw [hwr, hfr'])
        rw [this] at hwv
        exact hv' hwv
  · intro hfr
    have hfr' : ¬ c.round = finalRoundOf df c.election_id := hfr
    constructor
    · intro hv
      have hv' : (0:Int) < c.votes := hv
      show statusOf df c = "Continuing"
      unfold statusOf
      rw [if_neg hfr', if_pos hv']
    · intro hv
      have hv' : c.votes ≤ (0:Int) := hv
      show statusOf df c = "Eliminated"
      unfold statusOf
      rw [if_neg hfr', if_neg (by omega)]

/-- A two-candidate two-round contest: candidate 10 wins the final round with
6 votes, candidate 11 drops to 0. -/
def dfC4 : List OutRec :=
  [⟨1, 10, 1, 5, 0⟩, ⟨1, 11, 1, 3, 0⟩, ⟨1, 10, 2, 6, 1⟩, ⟨1, 11, 2, 0, -3⟩]

theorem claim_c4_status_witness :
    (⟨1, 10, 2, 6, 1, "Elected"⟩ : StatRec) ∈ addCandidateStatus dfC4 ∧
      (⟨1, 10, 2, 6, 1, "Elected"⟩ : StatRec).status = "Elected" :=
  ⟨by decide,
    ((claim_c4_status dfC4 (by decide) ⟨1, 10, 2, 6, 1, "Elected"⟩
      (by decide)).1 (by decide)).1 (by decide)⟩

-- ### transfer balance rule (`_validate_transfer_balance`, validation_utils.py lines 382-426)

/-- An issue entry of the Transfer Balance rule.  The source appends formatted
strings; the two shapes are distinguished here by constructor.  The final
filter of the source selects issues containing the substring "should be ≤ 0",
which occurs in the imbalance message and in no other, so that filter is
exactly `tbIsCritical` below. -/
inductive TBIssue where
  | imbalance (eid r : Nat) (s : Int)
  | largeNeg (eid r : Nat) (s : Int)
deriving DecidableEq

def tbIsCritical : TBIssue → Bool
  | .imbalance _ _ _ => true
  | .largeNeg _ _ _ => false

def tbIsLargeNeg : TBIssue → Bool
  | .imbalance _ _ _ => false
  | .largeNeg _ _ _ => true

def tbIssueSum : TBIssue → Int
  | .imbalance _ _ s => s
  | .largeNeg _ _ s => s

/-- The `{passed, issues, score}` dict of one validation rule. -/
structure TBResult where
  passed : Bool
  issues : List TBIssue
  score : Int
deriving DecidableEq

/-- `candidates_df[candidates_df["election_id"] == eid]`. -/
def candElectionRows (df : List StatRec) (eid : Nat) : List StatRec :=
  df.filter (fun c => decide (c.election_id = eid))

/-- `candidates_df["election_id"].unique()`. -/
def uniqueEidsOf (df : List StatRec) : List Nat :=
  (df.map (fun c => c.election_id)).dedup

/-- `election_data["round"].unique()`. -/
def uniqueRoundsOf (l : List StatRec) : List Nat :=
  (l.map (fun c => c.round)).dedup

/-- `round_data["transfer_calc"].sum()` of one round of one election. -/
def roundTransferTotal (ed : List StatRec) (r : Nat) : Int :=
  ((ed.filter (fun c => decide (c.round = r))).map (fun c => c.transfer_calc)).sum

/-- One iteration of the round loop of `_validate_transfer_balance`: round 1
is skipped; a positive sum appends an imbalance issue and clears `passed`; a
negative sum of magnitude above 100 appends a note and caps the running score
at 95; anything else leaves the state alone. -/
def tbRoundStep (ed : List StatRec) (eid : Nat) (st : TBResult) (r : Nat) : TBResult :=
  if r = 1 then st
  else
    if 0 < roundTransferTotal ed r then
      ⟨false, st.issues ++ [.imbalance eid r (roundTransferTotal ed r)], st.score⟩
    else if roundTransferTotal ed r < 0 then
      (if 100 < (roundTransferTotal ed r).natAbs then
        ⟨st.passed, st.issues ++ [.largeNeg eid r (roundTransferTotal ed r)],
          min st.score 95⟩
      else st)
    else st

/-- `_validate_transfer_balance`: iterate elections and rounds from the
initial `{passed: True, issues: [], score: 100}`, then recompute the score
from the critical (positive-sum) issues alone when any exist. -/
def validateTransferBalance (df : List StatRec) : TBResult :=
  let looped := (uniqueEidsOf df).foldl
    (fun st eid => (uniqueRoundsOf (candElectionRows df eid)).foldl
      (tbRoundStep (candElectionRows df eid) eid) st)
    ⟨true, [], 100⟩
  let critical := looped.issues.filter tbIsCritical
  if critical.length ≠ 0 then
    ⟨looped.passed, looped.issues, max 0 (100 - 10 * critical.length)⟩
  else looped

/-- The issues one (election, round) pair contributes. -/
def tbRoundIssues (ed : List StatRec) (eid r : Nat) : List TBIssue :=
  if r = 1 then []
  else
    if 0 < roundTransferTotal ed r then [.imbalance eid r (roundTransferTotal ed r)]
    else if roundTransferTotal ed r < 0 ∧ 100 < (roundTransferTotal ed r).natAbs then
      [.largeNeg eid r (roundTransferTotal ed r)]
    else []

/-- All issues the double loop appends, in order. -/
def tbIncidents (df : List StatRec) : List TBIssue :=
  (uniqueEidsOf df).flatMap (fun eid =>
    (uniqueRoundsOf (candElectionRows df eid)).flatMap
      (tbRoundIssues (candElectionRows df eid) eid))

/-- Folding a batch of new issues into the running rule state. -/
def tbCombine (st : TBResult) (new : List TBIssue) : TBResult :=
  ⟨st.passed && !(new.any tbIsCritical), st.issues ++ new,
    if new.any tbIsLargeNeg then min st.score 95 else st.score⟩

/-- The number of (election, round) pairs with round above 1 and a strictly
positive transfer sum. -/
def tbPosPairs (df : List StatRec) : Nat :=
  ((uniqueEidsOf df).map (fun eid =>
    ((uniqueRoundsOf (candElectionRows df eid)).filter (fun r =>
      decide (1 < r ∧ 0 < roundTransferTotal (candElectionRows df eid) r))).length)).sum

theorem tbRoundStep_eq (ed : List StatRec) (eid r : Nat) (st : TBResult) :
    tbRoundStep ed eid st r = tbCombine st (tbRoundIssues ed eid r) := by
  unfold tbRoundStep tbRoundIssues tbCombine
  by_cases h1 : r = 1
  · simp [h1]
  · simp only [if_neg h1]
    by_cases h2 : 0 < roundTransferTotal ed r
    · simp [h2, tbIsCritical, tbIsLargeNeg]
    · simp only [if_neg h2]
      by_cases h3 : roundTransferTotal ed r < 0
      · by_cases h4 : 100 < (roundTransferTotal ed r).natAbs
        · simp [h3, h4, tbIsCritical, tbIsLargeNeg]
        · simp [h3, h4]
      · simp [h3, fun h : roundTransferTotal ed r < 0 ∧ _ => h3 h.1]

theorem tbCombine_assoc (st : TBResult) (a b : List TBIssue) :
    tbCombine (tbCombine st a) b = tbCombine st (a ++ b) := by
  unfold tbCombine
  simp only [List.any_append, List.append_assoc, Bool.not_or, Bool.and_assoc]
  by_cases ha : a.any tbIsLargeNeg <;> by_cases hb : b.any tbIsLargeNeg <;>
    simp [ha, hb, min_assoc]

theorem foldl_tbCombine {α : Type} (g : α → List TBIssue) (l : List α) (st : TBResult) :
    l.foldl (fun st a => tbCombine st (g a)) st = tbCombine st (l.flatMap g) := by
  induction l generalizing st with
  | nil => simp [tbCombine]
  | cons a as ih =>
    simp only [List.foldl_cons, List.flatMap_cons]
    rw [ih, tbCombine_assoc]

theorem tbCombine_init (I : List TBIssue) :
    tbCombine ⟨true, [], 100⟩ I
      = ⟨!(I.any tbIsCritical), I, if I.any tbIsLargeNeg then 95 else 100⟩ := by
  unfold tbCombine
  simp only [Bool.true_and, List.nil_append]
  by_cases hl : I.any tbIsLargeNeg
  · rw [if_pos hl, if_pos hl]
    norm_num
  · rw [if_neg hl, if_neg hl]

theorem validateTransferBalance_eq (df : List StatRec) :
    validateTransferBalance df =
      (if ((tbIncidents df).filter tbIsCritical).length ≠ 0 then
        ⟨!((tbIncidents df).any tbIsCritical), tbIncidents df,
          max 0 (100 - 10 * ((tbIncidents df).filter tbIsCritical).length)⟩
      else
        ⟨!((tbIncidents df).any tbIsCritical), tbIncidents df,
          if (tbIncidents df).any tbIsLargeNeg then 95 else 100⟩ : TBResult) := by
  unfold validateTransferBalance
  have h1 : (fun (st : TBResult) eid =>
        (uniqueRoundsOf (candElectionRows df eid)).foldl
          (tbRoundStep (candElectionRows df eid) eid) st)
      = fun st eid => tbCombine st
          ((uniqueRoundsOf (candElectionRows df eid)).flatMap
            (tbRoundIssues (candElectionRows df eid) eid)) := by
    funext st eid
    rw [show tbRoundStep (candElectionRows df eid) eid
        = (fun st r => tbCombine st (tbRoundIssues (candElectionRows df eid) eid r))
      from funext fun st => funext fun r => tbRoundStep_eq _ _ _ _]
    exact foldl_tbCombine _ _ _
  rw [h1, foldl_tbCombine]
  rw [show ((uniqueEidsOf df).flatMap fun eid =>
      (uniqueRoundsOf (candElectionRows df eid)).flatMap
        (tbRoundIssues (candElectionRows df eid) eid)) = tbIncidents df from rfl]
  rw [tbCombine_init]

theorem length_flatMap_ite {α β : Type} (l : List α) (p : α → Prop) [DecidablePred p]
    (h : α → β) :
    (l.flatMap (fun a => if p a then [h a] else [])).length
      = (l.filter (fun a => decide (p a))).length := by
  induction l with
  | nil => rfl
  | cons a as ih =>
    by_cases hp : p a
    · simp [hp, ih]
    · simp [hp, ih]

theorem mem_uniqueRounds_ge_one {df : List StatRec} {eid r : Nat}
    (hr : ∀ c ∈ df, 1 ≤ c.round)
    (hmem : r ∈ uniqueRoundsOf (candElectionRows df eid)) : 1 ≤ r := by
  rcases List.mem_map.mp (List.mem_dedup.mp hmem) with ⟨c, hc, rfl⟩
  exact hr c (List.mem_filter.mp hc).1

theorem filter_crit_roundIssues (ed : List StatRec) (eid r : Nat) (h1 : 1 ≤ r) :
    (tbRoundIssues ed eid r).filter tbIsCritical
      = if 1 < r ∧ 0 < roundTransferTotal ed r then
          [TBIssue.imbalance eid r (roundTransferTotal ed r)]
        else [] := by
  unfold tbRoundIssues
  by_cases hr1 : r = 1
  · subst hr1
    simp
  · have hgt : 1 < r := by omega
    rw [if_neg hr1]
    by_cases h2 : 0 < roundTransferTotal ed r
    · rw [if_pos h2, if_pos ⟨hgt, h2⟩]
      simp [tbIsCritical, List.filter]
    · have hneg : ¬ (1 < r ∧ 0 < roundTransferTotal ed r) := fun hh => h2 hh.2
      rw [if_neg h2, if_neg hneg]
      by_cases h3 : roundTransferTotal ed r < 0 ∧ 100 < (roundTransferTotal ed r).natAbs
      · rw [if_pos h3]
        simp [tbIsCritical, List.filter]
      · rw [if_neg h3]
        rfl

theorem crit_length_eq_posPairs (df : List StatRec) (hr : ∀ c ∈ df, 1 ≤ c.round) :
    ((tbIncidents df).filter tbIsCritical).length = tbPosPairs df := by
  unfold tbIncidents tbPosPairs
  rw [List.filter_flatMap, List.length_flatMap]
  congr 1
  apply List.map_congr_left
  intro eid _
  simp only [Function.comp_apply]
  rw [List.filter_flatMap]
  rw [List.flatMap_congr (fun r hrm =>
    filter_crit_roundIssues (candElectionRows df eid) eid r
      (mem_uniqueRounds_ge_one hr hrm))]
  rw [length_flatMap_ite]

theorem any_iff_filter_len {α : Type} (p : α → Bool) (l : List α) :
    l.any p = true ↔ 0 < (l.filter p).length := by
  rw [List.any_eq_true, List.length_pos]
  constructor
  · rintro ⟨x, hx, hpx⟩ hnil
    have hmem : x ∈ l.filter p := List.mem_filter.mpr ⟨hx, hpx⟩
    rw [hnil] at hmem
    cases hmem
  · intro hne
    cases hfp : l.filter p with
    | nil => exact absurd hfp hne
    | cons x xs =>
      have hx : x ∈ l.filter p := by
        rw [hfp]
        exact List.mem_cons_self _ _
      have hm := List.mem_filter.mp hx
      exact ⟨x, hm.1, hm.2⟩

/-- transfer balance rule, C6: with rounds numbered from 1 (the data-model
invariant), a positive per-round transfer sum above round 1 fails the rule and
each such incident costs 10 points (floored at 0); sums below -100 only cap
the score at 95 without failing the rule; and every issue the rule emits comes
from a sum that is positive or below -100, so sums in [-100, 0] are silent. -/
theorem claim_c6_transfer_balance (df : List StatRec) (hr : ∀ c ∈ df, 1 ≤ c.round) :
    ((validateTransferBalance df).passed = false ↔ 0 < tbPosPairs df) ∧
    (0 < tbPosPairs df →
      (validateTransferBalance df).score = max 0 (100 - 10 * (tbPosPairs df : Int))) ∧
    (tbPosPairs df = 0 →
      (validateTransferBalance df).score
        = if (tbIncidents df).any tbIsLargeNeg then 95 else 100) ∧
    (∀ eid r, eid ∈ uniqueEidsOf df →
      r ∈ uniqueRoundsOf (candElectionRows df eid) → 1 < r →
      0 < roundTransferTotal (candElectionRows df eid) r →
      TBIssue.imbalance eid r (roundTransferTotal (candElectionRows df eid) r)
        ∈ (validateTransferBalance df).issues) ∧
    (∀ i ∈ (validateTransferBalance df).issues,
      0 < tbIssueSum i ∨ tbIssueSum i < -100) := by
  have hlen := crit_length_eq_posPairs df hr
  have heq := validateTransferBalance_eq df
  have hissues : (validateTransferBalance df).issues = tbIncidents df := by
    rw [heq]
    by_cases hc : ((tbIncidents df).filter tbIsCritical).length ≠ 0
    · rw [if_pos hc]
    · rw [if_neg hc]
  have hpassed : (validateTransferBalance df).passed
      = !((tbIncidents df).any tbIsCritical) := by
    rw [heq]
    by_cases hc : ((tbIncidents df).filter tbIsCritical).length ≠ 0
    · rw [if_pos hc]
    · rw [if_neg hc]
  have hscore : (validateTransferBalance df).score
      = (if ((tbIncidents df).filter tbIsCritical).length ≠ 0 then
          max 0 (100 - 10 * (((tbIncidents df).filter tbIsCritical).length : Int))
        else if (tbIncidents df).any tbIsLargeNeg then 95 else 100) := by
    rw [heq]
    by_cases hc : ((tbIncidents df).filter tbIsCritical).length ≠ 0
    · rw [if_pos hc, if_pos hc]
    · rw [if_neg hc, if_neg hc]
  refine ⟨?_, ?_, ?_, ?_, ?_⟩
  · rw [hpassed, ← hlen]
    constructor
    · intro h
      apply (any_iff_filter_len _ _).mp
      cases hany : (tbIncidents df).any tbIsCritical
      · rw [hany] at h
        cases h
      · rfl
    · intro h
      rw [(any_iff_filter_len _ _).mpr h]
      rfl
  · intro hpos
    have hc : ((tbIncidents df).filter tbIsCritical).length ≠ 0 := by
      rw [hlen]
      omega
    rw [hscore, if_pos hc, hlen]
  · intro h0
    have hc : ¬ ((tbIncidents df).filter tbIsCritical).length ≠ 0 := by
      rw [hlen]
      omega
    rw [hscore, if_neg hc]
  · intro eid r heid hrmem hgt hpos
    rw [hissues]
    apply List.mem_flatMap.mpr
    refine ⟨eid, heid, List.mem_flatMap.mpr ⟨r, hrmem, ?_⟩⟩
    unfold tbRoundIssues
    rw [if_neg (by omega), if_pos hpos]
    exact List.mem_singleton.mpr rfl
  · intro i hi
    rw [hissues] at hi
    rcases List.mem_flatMap.mp hi with ⟨eid, _, hin⟩
    rcases List.mem_flatMap.mp hin with ⟨r, _, hmem⟩
    unfold tbRoundIssues at hmem
    by_cases h1 : r = 1
    · rw [if_pos h1] at hmem
      cases hmem
    · rw [if_neg h1] at hmem
      by_cases h2 : 0 < roundTransferTotal (candElectionRows df eid) r
      · rw [if_pos h2] at hmem
        rcases List.mem_singleton.mp hmem with rfl
        exact Or.inl h2
      · rw [if_neg h2] at hmem
        by_cases h3 : roundTransferTotal (candElectionRows df eid) r < 0 ∧
            100 < (roundTransferTotal (candElectionRows df eid) r).natAbs
        · rw [if_pos h3] at hmem
          rcases List.mem_singleton.mp hmem with rfl
          refine Or.inr ?_
          show roundTransferTotal (candElectionRows df eid) r < -100
          omega
        · rw [if_neg h3] at hmem
          cases hmem

/-- A contest whose round 2 has transfer sum +3: the rule must fail with
score 90. -/
def dfC6 : List StatRec :=
  [⟨1, 10, 1, 5, 0, "Continuing"⟩, ⟨1, 11, 1, 3, 0, "Continuing"⟩,
   ⟨1, 10, 2, 8, 5, "Elected"⟩, ⟨1, 11, 2, 1, -2, "Eliminated"⟩]

theorem claim_c6_transfer_balance_witness :
    (∀ c ∈ dfC6, 1 ≤ c.round) ∧ 0 < tbPosPairs dfC6 ∧
      (validateTransferBalance dfC6).passed = false ∧
      (validateTransferBalance dfC6).score = max 0 (100 - 10 * (tbPosPairs dfC6 : Int)) :=
  ⟨by decide, by decide,
    ((claim_c6_transfer_balance dfC6 (by decide)).1).mpr (by decide),
    (claim_c6_transfer_balance dfC6 (by decide)).2.1 (by decide)⟩

-- ### tier classifier (`TIER_RULES`, `_max_tier_from_flags`,
-- `score_election_from_flags`, validation_utils.py lines 14-120)

/-- The static flag-name -> tier weight table. -/
def TIER_RULES : List (String × Nat) :=
  [("positive_transfer_balance", 3), ("single_winner_violation", 3),
   ("cands_gt_round_total", 3),
   ("large_neg_transfer_balance", 2), ("transfer_diff_large", 2),
   ("round_sequence_gap", 2),
   ("vote_monotonicity_violation", 1), ("cands_lt_round_total_gap", 1),
   ("transfer_diff_small", 1)]

/-- `TIER_RULES.get(f, 1)`: unknown flags default to minor. -/
def tierOfFlag (f : String) : Nat :=
  ((TIER_RULES.find? (fun p => decide (p.1 = f))).map (fun p => p.2)).getD 1

/-- Python `max` over a non-empty list of naturals (0 for the unreachable
empty case). -/
def natMax (l : List Nat) : Nat := l.foldr max 0

/-- `_max_tier_from_flags`: 0 on an empty flag list, else the maximum of the
looked-up weights. -/
def maxTierFromFlags (flags : List String) : Nat :=
  if flags.isEmpty then 0 else natMax (flags.map tierOfFlag)

/-- Lexicographic code-point order on char lists (Python string comparison,
restricted to the ASCII flag names in play). -/
def charListLe : List Char → List Char → Bool
  | [], _ => true
  | _ :: _, [] => false
  | a :: as, b :: bs => if a = b then charListLe as bs else decide (a < b)

def strLe (a b : String) : Bool := charListLe a.data b.data

/-- Stable insertion used to model Python `sorted` (only the membership of the
result matters to the statements below). -/
def insertSorted {α : Type} (le : α → α → Bool) (a : α) : List α → List α
  | [] => [a]
  | b :: bs => if le a b then a :: b :: bs else b :: insertSorted le a bs

def sortedList {α : Type} (le : α → α → Bool) : List α → List α
  | [] => []
  | a :: as => insertSorted le a (sortedList le as)

/-- `[f for f in (flags_list or []) if f]`: keep the non-None, non-empty
(truthy) flags. -/
def truthyFlags (flags_list : List (Option String)) : List String :=
  (flags_list.filterMap id).filter (fun s => decide (s ≠ ""))

/-- The `{election_id, tier, flags}` dict returned per contest. -/
structure ContestScore where
  election_id : Nat
  tier : Nat
  flags : List String
deriving DecidableEq

/-- `score_election_from_flags`: truthy-filter, deduplicate, sort, then take
the maximal tier weight. -/
def scoreElectionFromFlags (eid : Nat) (flags_list : List (Option String)) :
    ContestScore :=
  ⟨eid, maxTierFromFlags (sortedList strLe (truthyFlags flags_list).dedup),
    sortedList strLe (truthyFlags flags_list).dedup⟩

theorem le_natMax_of_mem {l : List Nat} {a : Nat} (h : a ∈ l) : a ≤ natMax l := by
  induction l with
  | nil => cases h
  | cons x xs ih =>
    rcases List.mem_cons.mp h with rfl | hm
    · exact le_max_left _ _
    · exact le_trans (ih hm) (le_max_right _ _)

theorem natMax_mem {l : List Nat} (h : l ≠ []) : natMax l ∈ l := by
  induction l with
  | nil => exact absurd rfl h
  | cons x xs ih =>
    cases xs with
    | nil =>
      show max x (natMax []) ∈ [x]
      rw [show natMax [] = 0 from rfl, Nat.max_zero]
      exact List.mem_singleton.mpr rfl
    | cons y ys =>
      have hmem := ih (by simp)
      show max x (natMax (y :: ys)) ∈ x :: y :: ys
      rcases Nat.le_total x (natMax (y :: ys)) with hle | hle
      · rw [max_eq_right hle]
        exact List.mem_cons_of_mem _ hmem
      · rw [max_eq_left hle]
        exact List.mem_cons_self _ _

theorem mem_insertSorted {α : Type} (le : α → α → Bool) (a x : α) (l : List α) :
    x ∈ insertSorted le a l ↔ x = a ∨ x ∈ l := by
  induction l with
  | nil => simp [insertSorted]
  | cons b bs ih =>
    unfold insertSorted
    by_cases h : le a b
    · simp [h]
    · simp only [h, Bool.false_eq_true, if_false, List.mem_cons, ih]
      tauto

theorem mem_sortedList {α : Type} (le : α → α → Bool) (x : α) (l : List α) :
    x ∈ sortedList le l ↔ x ∈ l := by
  induction l with
  | nil => simp [sortedList]
  | cons a as ih =>
    unfold sortedList
    rw [mem_insertSorted]
    simp [ih]

theorem mem_scoreFlags (eid : Nat) (fl : List (Option String)) (f : String) :
    f ∈ (scoreElectionFromFlags eid fl).flags ↔ f ∈ truthyFlags fl := by
  show f ∈ sortedList strLe (truthyFlags fl).dedup ↔ _
  rw [mem_sortedList, List.mem_dedup]

theorem tier_upper (eid : Nat) (fl : List (Option String)) :
    ∀ f ∈ truthyFlags fl, tierOfFlag f ≤ (scoreElectionFromFlags eid fl).tier := by
  intro f hf
  have hfS : f ∈ sortedList strLe (truthyFlags fl).dedup := by
    rw [mem_sortedList, List.mem_dedup]
    exact hf
  show tierOfFlag f ≤ maxTierFromFlags (sortedList strLe (truthyFlags fl).dedup)
  unfold maxTierFromFlags
  rw [if_neg (by
    rw [Bool.not_eq_true, List.isEmpty_eq_false]
    exact List.ne_nil_of_mem hfS)]
  exact le_natMax_of_mem (List.mem_map.mpr ⟨f, hfS, rfl⟩)

/-- tier computation and monotonicity, C7: the computed tier is an upper bound
of the triggered flags' weights and is attained by one of them, an empty flag
set gets tier 0, and consing one more flag never lowers the tier. -/
theorem claim_c7_tier (eid : Nat) (fl : List (Option String)) (g : String) :
    (∀ f ∈ truthyFlags fl, tierOfFlag f ≤ (scoreElectionFromFlags eid fl).tier) ∧
    (truthyFlags fl ≠ [] →
      ∃ f ∈ truthyFlags fl, (scoreElectionFromFlags eid fl).tier = tierOfFlag f) ∧
    (truthyFlags fl = [] → (scoreElectionFromFlags eid fl).tier = 0) ∧
    (scoreElectionFromFlags eid fl).tier
      ≤ (scoreElectionFromFlags eid (some g :: fl)).tier := by
  have htruthy : ∀ f, f ∈ truthyFlags fl → f ∈ truthyFlags (some g :: fl) := by
    intro f hf
    have h1 := List.mem_filter.mp hf
    rcases List.mem_filterMap.mp h1.1 with ⟨x, hx, hfx⟩
    exact List.mem_filter.mpr
      ⟨List.mem_filterMap.mpr ⟨x, List.mem_cons_of_mem _ hx, hfx⟩, h1.2⟩
  have hrealized : truthyFlags fl ≠ [] →
      ∃ f ∈ truthyFlags fl, (scoreElectionFromFlags eid fl).tier = tierOfFlag f := by
    intro hne
    have hSne : sortedList strLe (truthyFlags fl).dedup ≠ [] := by
      cases htr : truthyFlags fl with
      | nil => exact absurd htr hne
      | cons a as =>
        have hamem : a ∈ sortedList strLe (a :: as).dedup := by
          rw [mem_sortedList, List.mem_dedup]
          exact List.mem_cons_self _ _
        exact List.ne_nil_of_mem hamem
    have hmapne : (sortedList strLe (truthyFlags fl).dedup).map tierOfFlag ≠ [] := by
      simpa using hSne
    have hmem := natMax_mem hmapne
    rcases List.mem_map.mp hmem with ⟨f, hfS, hft⟩
    refine ⟨f, ?_, ?_⟩
    · rw [← List.mem_dedup, ← mem_sortedList strLe]
      exact hfS
    · show maxTierFromFlags (sortedList strLe (truthyFlags fl).dedup) = tierOfFlag f
      unfold maxTierFromFlags
      rw [if_neg (by
        rw [Bool.not_eq_true, List.isEmpty_eq_false]
        exact hSne)]
      exact hft.symm
  refine ⟨tier_upper eid fl, hrealized, ?_, ?_⟩
  · intro hnil
    show maxTierFromFlags (sortedList strLe (truthyFlags fl).dedup) = 0
    rw [hnil]
    rfl
  · by_cases hne : truthyFlags fl = []
    · have : (scoreElectionFromFlags eid fl).tier = 0 := by
        show maxTierFromFlags (sortedList strLe (truthyFlags fl).dedup) = 0
        rw [hne]
        rfl
      rw [this]
      exact Nat.zero_le _
    · rcases hrealized hne with ⟨f, hf, hft⟩
      rw [hft]
      exact tier_upper eid (some g :: fl) f (htruthy f hf)

theorem claim_c7_tier_witness :
    (truthyFlags [some "cands_lt_round_total_gap"] ≠ [] ∧
      ∃ f ∈ truthyFlags [some "cands_lt_round_total_gap"],
        (scoreElectionFromFlags 7 [some "cands_lt_round_total_gap"]).tier = tierOfFlag f) ∧
    (truthyFlags ([] : List (Option String)) = [] →
      (scoreElectionFromFlags 7 []).tier = 0) ∧
    (scoreElectionFromFlags 7 [some "cands_lt_round_total_gap"]).tier
      ≤ (scoreElectionFromFlags 7
          [some "positive_transfer_balance", some "cands_lt_round_total_gap"]).tier :=
  ⟨⟨by decide,
    (claim_c7_tier 7 [some "cands_lt_round_total_gap"] "positive_transfer_balance").2.1
      (by decide)⟩,
   (claim_c7_tier 7 [] "positive_transfer_balance").2.2.1,
   (claim_c7_tier 7 [some "cands_lt_round_total_gap"] "positive_transfer_balance").2.2.2⟩

-- ### Python string primitives (ASCII fragment used by the pipeline)

/-- Python `str.lower()` (charwise ASCII lowering). -/
def pyLower (s : String) : String := (s.data.map Char.toLower).asString

-- ### tier-based per-contest scores
-- (`compute_tier_based_scores`, validation_utils.py lines 124-203)

/-- One round-summary row; an election id left unmapped by
`_standardize_election_ids` is none (NaN). -/
structure RoundRecM where
  election_id : Option Nat
  round : Nat
  total_votes : Int
deriving DecidableEq

/-- `classify_transfer_balance` (lines 47-66).  `int(round_total * 0.02)` is
modelled as the integer expression rt * 2 / 100; the float rounding at scale
boundaries is immaterial to every statement proved in this file (none depends
on the exact threshold value). -/
def classifyTransferBalance (sumT : Int) (roundTotal : Option Int) : Option String :=
  if 0 < sumT then some "positive_transfer_balance"
  else
    if sumT ≤ -(match roundTotal with
        | some rt => max 1000 (rt * 2 / 100)
        | none => 1000) then some "large_neg_transfer_balance"
    else none

/-- `classify_vote_consistency` (lines 68-78): candidate sum above the round
total is major; any strictly positive shortfall yields the gap flag. -/
def classifyVoteConsistency (candsSum roundTotal : Int) : Option String :=
  if roundTotal < candsSum then some "cands_gt_round_total"
  else if 0 < roundTotal - candsSum then some "cands_lt_round_total_gap"
  else none

/-- `rounds_df[rounds_df["election_id"] == eid]` (a NaN id matches nothing). -/
def contestRounds (rounds : List RoundRecM) (eid : Nat) : List RoundRecM :=
  rounds.filter (fun x => decide (x.election_id = some eid))

/-- `election_rounds["round"].unique()`. -/
def roundsOfSummaries (ers : List RoundRecM) : List Nat :=
  (ers.map (fun x => x.round)).dedup

/-- `election_rounds["round"].max()`. -/
def finalRoundSummaries (ers : List RoundRecM) : Nat :=
  (ers.map (fun x => x.round)).foldr max 0

/-- The flag list one election accumulates in `compute_tier_based_scores`:
the single-winner count check (guarded by a non-empty final-round slice), the
round-sequence check, then per distinct round the transfer-balance and
vote-consistency classifiers (each guarded by a non-empty candidate slice; the
source's `'transfer_calc' in columns` test is always true in this typed
model).  Entries are `some flag`, mirroring `election_flags.append(flag)`. -/
def electionFlags (cands : List StatRec) (rounds : List RoundRecM) (eid : Nat) :
    List (Option String) :=
  (if ((contestRounds rounds eid).filter (fun x =>
      decide (x.round = finalRoundSummaries (contestRounds rounds eid)))).length ≠ 0 then
    (if ((candElectionRows cands eid).filter (fun c =>
        decide (pyLower c.status = "elected"))).length ≠ 1 then
      [some "single_winner_violation"] else [])
  else [])
  ++ (if sortedList (fun a b => decide (a ≤ b))
          (roundsOfSummaries (contestRounds rounds eid))
        ≠ List.range' 1 (finalRoundSummaries (contestRounds rounds eid)) then
      [some "round_sequence_gap"] else [])
  ++ (roundsOfSummaries (contestRounds rounds eid)).flatMap (fun r =>
      if ((contestRounds rounds eid).filter (fun x => decide (x.round = r))).length ≠ 0 then
        (if ((candElectionRows cands eid).filter (fun c => decide (c.round = r))).length ≠ 0 then
          (match classifyTransferBalance
              ((((candElectionRows cands eid).filter (fun c => decide (c.round = r))).map
                (fun c => c.transfer_calc)).sum)
              (some (((((contestRounds rounds eid).filter (fun x =>
                decide (x.round = r))).head?).map (fun x => x.total_votes)).getD 0)) with
            | some fl => [some fl]
            | none => [])
        else [])
        ++ (if ((candElectionRows cands eid).filter (fun c => decide (c.round = r))).length ≠ 0 then
          (match classifyVoteConsistency
              ((((candElectionRows cands eid).filter (fun c => decide (c.round = r))).map
                (fun c => c.votes)).sum)
              (((((contestRounds rounds eid).filter (fun x =>
                decide (x.round = r))).head?).map (fun x => x.total_votes)).getD 0) with
            | some fl => [some fl]
            | none => [])
        else [])
      else [])

/-- `round_data["total_votes"].iloc[0]` for one (election, round). -/
def roundTotalOf (rounds : List RoundRecM) (eid r : Nat) : Int :=
  ((((contestRounds rounds eid).filter (fun x => decide (x.round = r))).head?).map
    (fun x => x.total_votes)).getD 0

/-- `compute_tier_based_scores`: one score per election of the Contest
collection (first occurrence of each id), skipping elections without candidate
or round rows. -/
def computeTierBasedScores (eids : List Nat) (cands : List StatRec)
    (rounds : List RoundRecM) : List ContestScore :=
  eids.dedup.filterMap (fun eid =>
    if (candElectionRows cands eid).length = 0 ∨ (contestRounds rounds eid).length = 0
    then none
    else some (scoreElectionFromFlags eid (electionFlags cands rounds eid)))

/-- implicit gap-flag claim, C10: whenever a contest (present in all three
collections) has a round whose candidate vote sum falls short of the round's
recorded total by any positive amount, the scorer emits
cands_lt_round_total_gap for that contest and its tier is at least 1. -/
theorem claim_c10_gap_flag (eids : List Nat) (cands : List StatRec)
    (rounds : List RoundRecM) (eid r : Nat)
    (h1 : eid ∈ eids)
    (h2 : candElectionRows cands eid ≠ [])
    (h3 : r ∈ roundsOfSummaries (contestRounds rounds eid))
    (h4 : (candElectionRows cands eid).filter (fun c => decide (c.round = r)) ≠ [])
    (h5 : (((candElectionRows cands eid).filter (fun c => decide (c.round = r))).map
            (fun c => c.votes)).sum < roundTotalOf rounds eid r) :
    ∃ S ∈ computeTierBasedScores eids cands rounds,
      S.election_id = eid ∧ "cands_lt_round_total_gap" ∈ S.flags ∧ 1 ≤ S.tier := by
  have hersne : contestRounds rounds eid ≠ [] := by
    rcases List.mem_map.mp (List.mem_dedup.mp h3) with ⟨x, hx, _⟩
    exact List.ne_nil_of_mem hx
  have hrd : (contestRounds rounds eid).filter (fun x => decide (x.round = r)) ≠ [] := by
    rcases List.mem_map.mp (List.mem_dedup.mp h3) with ⟨x, hx, hxr⟩
    exact List.ne_nil_of_mem (List.mem_filter.mpr ⟨hx, by simp [hxr]⟩)
  have hflag : (some "cands_lt_round_total_gap") ∈ electionFlags cands rounds eid := by
    unfold electionFlags
    apply List.mem_append.mpr
    right
    apply List.mem_flatMap.mpr
    refine ⟨r, h3, ?_⟩
    rw [if_pos (fun hl => hrd (List.length_eq_zero.mp hl))]
    apply List.mem_append.mpr
    right
    rw [if_pos (fun hl => h4 (List.length_eq_zero.mp hl))]
    have h5' : (((candElectionRows cands eid).filter (fun c => decide (c.round = r))).map
        (fun c => c.votes)).sum
        < ((((contestRounds rounds eid).filter (fun x =>
          decide (x.round = r))).head?).map (fun x => x.total_votes)).getD 0 := h5
    have hcls : classifyVoteConsistency
        ((((candElectionRows cands eid).filter (fun c => decide (c.round = r))).map
          (fun c => c.votes)).sum)
        (((((contestRounds rounds eid).filter (fun x =>
          decide (x.round = r))).head?).map (fun x => x.total_votes)).getD 0)
        = some "cands_lt_round_total_gap" := by
      unfold classifyVoteConsistency
      rw [if_neg (by omega), if_pos (by omega)]
    rw [hcls]
    exact List.mem_singleton.mpr rfl
  have hescore : scoreElectionFromFlags eid (electionFlags cands rounds eid)
      ∈ computeTierBasedScores eids cands rounds := by
    unfold computeTierBasedScores
    apply List.mem_filterMap.mpr
    refine ⟨eid, List.mem_dedup.mpr h1, ?_⟩
    rw [if_neg ?hg]
    case hg =>
      rintro (hl | hl)
      · exact h2 (List.length_eq_zero.mp hl)
      · exact hersne (List.length_eq_zero.mp hl)
  have hmemT : "cands_lt_round_total_gap" ∈ truthyFlags (electionFlags cands rounds eid) :=
    List.mem_filter.mpr
      ⟨List.mem_filterMap.mpr ⟨some "cands_lt_round_total_gap", hflag, rfl⟩, by decide⟩
  refine ⟨scoreElectionFromFlags eid (electionFlags cands rounds eid), hescore, rfl, ?_, ?_⟩
  · rw [mem_scoreFlags]
    exact hmemT
  · have hub := tier_upper eid (electionFlags cands rounds eid) _ hmemT
    calc (1:Nat) = tierOfFlag "cands_lt_round_total_gap" := by decide
    _ ≤ _ := hub

/-- One contest with one round: the single candidate has 5 of the 9 recorded
total votes, a 4-vote gap. -/
def dfC10c : List StatRec := [⟨1, 10, 1, 5, 0, "Elected"⟩]

def dfC10r : List RoundRecM := [⟨some 1, 1, 9⟩]

theorem claim_c10_gap_flag_witness :
    ∃ S ∈ computeTierBasedScores [1] dfC10c dfC10r,
      S.election_id = 1 ∧ "cands_lt_round_total_gap" ∈ S.flags ∧ 1 ≤ S.tier :=
  claim_c10_gap_flag [1] dfC10c dfC10r 1 1 (by decide) (by decide) (by decide)
    (by decide) (by decide)

-- ### canonical contest ids (`_create_standard_election_id`,
-- data_utils.py lines 337-385)

/-- ASCII whitespace as matched by Python `strip`/`\s` on the inputs in play. -/
def isSpaceChar (c : Char) : Bool :=
  decide (c = ' ' ∨ c = '\t' ∨ c = '\n' ∨ c = '\r')

/-- A regex `\w` character: alphanumeric or underscore (ASCII fragment). -/
def isWordChar (c : Char) : Bool := c.isAlphanum || c = '_'

/-- Python `str.strip()`. -/
def pyStrip (s : String) : String :=
  (((s.data.dropWhile isSpaceChar).reverse.dropWhile isSpaceChar).reverse).asString

/-- Python `str.title()` on the ASCII fragment: a letter opening a run of
letters is uppercased, the following letters of the run lowercased; every
non-letter is a word boundary. -/
def pyTitleAux : Bool → List Char → List Char
  | _, [] => []
  | prevAlpha, c :: cs =>
    if c.isAlpha then
      (if prevAlpha then c.toLower else c.toUpper) :: pyTitleAux true cs
    else c :: pyTitleAux false cs

def pyTitle (s : String) : String := (pyTitleAux false s.data).asString

/-- The static office synonym table `office_map`. -/
def officeMap : List (String × String) :=
  [("U.S. House", "US_House"), ("U.S. Senator", "US_Senate"),
   ("Senate", "State_Senate"), ("House", "State_House"),
   ("City Council", "Council"), ("Council Member", "Council"),
   ("Mayor", "Mayor"), ("Governor", "Governor"),
   ("District Attorney", "DistrictAttorney"), ("School Board", "SchoolBoard"),
   ("Board of Education", "BoardOfEducation")]

def typeAbbrMap : List (String × String) :=
  [("general", "G"), ("primary", "P"), ("special", "S")]

def partyAbbrMap : List (String × String) :=
  [("Democratic", "DEM"), ("Republican", "REP")]

/-- `office_map.get(office.strip(), office.replace(" ", ""))`. -/
def officeStdOf (office : String) : String :=
  ((officeMap.find? (fun p => decide (p.1 = pyStrip office))).map (fun p => p.2)).getD
    (((pyStrip office).data.filter (fun c => decide (c ≠ ' '))).asString)

/-- `re.sub(r'[^\w\s]', '', juris.strip()).replace(" ", "").title()`. -/
def jurisStdOf (juris : String) : String :=
  (pyTitleAux false
    (((pyStrip juris).data.filter (fun c => isWordChar c || isSpaceChar c)).filter
      (fun c => decide (c ≠ ' ')))).asString

/-- Digit-run value, `none` when empty or not all digits. -/
def digitsVal (l : List Char) : Option Nat :=
  if l ≠ [] ∧ l.all Char.isDigit then
    some (l.foldl (fun acc c => acc * 10 + (c.toNat - 48)) 0)
  else none

/-- Python `int(str)`: strip whitespace, optional sign, digit run (the
underscore digit-separator extension is not modelled; no input in play uses
it). -/
def strToIntOpt (s : String) : Option Int :=
  match (pyStrip s).data with
  | '+' :: rest => (digitsVal rest).map (fun n => (n : Int))
  | '-' :: rest => (digitsVal rest).map (fun n => -(n : Int))
  | l => (digitsVal l).map (fun n => (n : Int))

/-- Python `str.zfill(2)`: left-pad with zeros to width 2, keeping a leading
sign in front. -/
def zfill2 (s : String) : String :=
  if 2 ≤ s.length then s
  else match s.data with
    | [] => "00"
    | [c] => if c = '+' ∨ c = '-' then ([c] ++ ['0']).asString else (['0'] ++ [c]).asString
    | _ => s

/-- The district slug: "at_large" (case-insensitively, after strip) maps to
"At_Large", else the zero-padded integer value, else the zero-padded raw
string. -/
def distStdOf (dist : String) : String :=
  if pyLower (pyStrip dist) = "at_large" then "At_Large"
  else match strToIntOpt (pyStrip dist) with
    | some n => zfill2 (toString n)
    | none => zfill2 (pyStrip dist)

/-- `type_abbr_map.get(election_type.lower(), "X")`. -/
def typeAbbrOf (t : String) : String :=
  ((typeAbbrMap.find? (fun p => decide (p.1 = pyLower t))).map (fun p => p.2)).getD "X"

/-- `party_abbr_map.get(party.strip().title(), party.strip().title()[:3].upper())`. -/
def partyAbbrOf (party : String) : String :=
  ((partyAbbrMap.find? (fun p => decide (p.1 = pyTitle (pyStrip party)))).map
    (fun p => p.2)).getD
    ((((pyTitle (pyStrip party)).data.take 3).map Char.toUpper).asString)

/-- The contest-metadata fields read by `_create_standard_election_id`
(`year` already rendered to text, as `str(row["year"])` does). -/
structure ElectionRow where
  state : String
  year : String
  office : String
  juris : String
  dist : String
  election_type : String
  prm_party : Option String
deriving DecidableEq

/-- Python `"_".join(parts)`. -/
def joinUnderscore : List String → String
  | [] => ""
  | [x] => x
  | x :: xs => x ++ "_" ++ joinUnderscore xs

/-- `_create_standard_election_id`: join state, year, type abbreviation,
jurisdiction slug, district slug and office slug, plus the party abbreviation
for primaries with a non-null party. -/
def createStandardElectionId (row : ElectionRow) : String :=
  joinUnderscore
    ([row.state, row.year, typeAbbrOf row.election_type, jurisStdOf row.juris,
      distStdOf row.dist, officeStdOf row.office]
     ++ (if pyLower row.election_type = "primary" then
          match row.prm_party with
          | some party => [partyAbbrOf party]
          | none => []
        else []))

/-- String suffix test (Python `str.endswith`). -/
def strEndsWith (s suffix : String) : Bool := suffix.data.isSuffixOf s.data

/-- Scenario C's contest row: jurisdiction "St. Louis City", office "Mayor",
general election, at-large district. -/
def rowC8 : ElectionRow :=
  ⟨"MO", "2021", "Mayor", "St. Louis City", "at_large", "general", none⟩

/-- C8 counterexample: the canonical id of the Scenario C contest is
MO_2021_G_Stlouiscity_At_Large_Mayor — `title()` lowercases the interior
capitals of "StLouisCity" and the district slug keeps its underscore — so it
does not end in the suffix StLouisCity_AtLarge_Mayor claimed by the spec. -/
theorem claim_c8_counterexample :
    createStandardElectionId rowC8 = "MO_2021_G_Stlouiscity_At_Large_Mayor" ∧
    strEndsWith (createStandardElectionId rowC8) "StLouisCity_AtLarge_Mayor" = false := by
  constructor
  · rfl
  · rfl

/-- C8 amended: for any state, year and party field, the Scenario C contest's
canonical id ends in the suffix G_Stlouiscity_At_Large_Mayor (the whole tail
after the state and year tokens). -/
theorem claim_c8_amended (st yr : String) (party : Option String) :
    createStandardElectionId ⟨st, yr, "Mayor", "St. Louis City", "at_large", "general", party⟩
      = st ++ "_" ++ (yr ++ "_" ++ "G_Stlouiscity_At_Large_Mayor") := rfl

-- ### id standardization and orphan records
-- (`_standardize_election_ids`, data_utils.py lines 316-335)

/-- A candidate row before id standardization (raw extracted election ids). -/
structure RawCandPre where
  election_id : Nat
  candidate_id : Nat
  round : Nat
  votes : Option Int
  transfer : String
deriving DecidableEq

/-- A round-summary row before id standardization. -/
structure RoundRecRaw where
  election_id : Nat
  round : Nat
  total_votes : Int
deriving DecidableEq

/-- `dict(zip(old_ids, new_ids))` then `Series.map(id_mapping)`: an id with no
entry becomes NaN (`none`).  `_clean_elections` deduplicates election ids, so
taking the first matching pair is exact. -/
def mapElectionId (m : List (Nat × Nat)) (e : Nat) : Option Nat :=
  (m.find? (fun p => decide (p.1 = e))).map (fun p => p.2)

/-- `_standardize_election_ids` on the candidates collection: the id column is
rewritten in place, rows are kept. -/
def standardizeCandidates (m : List (Nat × Nat)) (cs : List RawCandPre) : List RawRec :=
  cs.map (fun c =>
    ⟨mapElectionId m c.election_id, c.candidate_id, c.round, c.votes, c.transfer⟩)

/-- `_standardize_election_ids` on the rounds collection: likewise, rows are
kept. -/
def standardizeRounds (m : List (Nat × Nat)) (rs : List RoundRecRaw) : List RoundRecM :=
  rs.map (fun x => ⟨mapElectionId m x.election_id, x.round, x.total_votes⟩)

theorem find?_filter_of_imp {α : Type} (l : List α) (p q : α → Bool)
    (himp : ∀ a, p a = true → q a = true) :
    (l.filter q).find? p = l.find? p := by
  induction l with
  | nil => rfl
  | cons a as ih =>
    by_cases hq : q a
    · rw [List.filter_cons, if_pos hq]
      by_cases hp : p a
      · rw [List.find?_cons_of_pos _ hp, List.find?_cons_of_pos _ hp]
      · rw [List.find?_cons_of_neg _ hp, List.find?_cons_of_neg _ hp, ih]
    · rw [List.filter_cons, if_neg hq]
      have hp : ¬ p a = true := fun hpa => hq (himp a hpa)
      rw [List.find?_cons_of_neg _ hp, ih]

theorem electionsOf_filterSome (df : List RawRec) :
    electionsOf (df.filter (fun c => c.election_id.isSome)) = electionsOf df := by
  unfold electionsOf
  congr 1
  induction df with
  | nil => rfl
  | cons c cs ih =>
    cases hc : c.election_id with
    | none => simp [List.filter_cons, List.filterMap_cons, hc, ih]
    | some e => simp [List.filter_cons, List.filterMap_cons, hc, ih]

theorem electionRows_filterSome (df : List RawRec) (eid : Nat) :
    electionRows (df.filter (fun c => c.election_id.isSome)) eid
      = electionRows df eid := by
  unfold electionRows
  rw [List.filter_filter]
  apply List.filter_congr
  intro c _
  cases hc : c.election_id with
  | none => simp [hc]
  | some e => simp [hc]

theorem lookupVotes_filterSome (df : List RawRec) (eid cid r : Nat) :
    lookupVotes (df.filter (fun c => c.election_id.isSome)) eid cid r
      = lookupVotes df eid cid r := by
  unfold lookupVotes
  rw [find?_filter_of_imp]
  intro c hc
  simp only [decide_eq_true_eq] at hc
  rw [hc.1]
  rfl

theorem computeTransfer_filterSome (df : List RawRec) :
    computeTransferFromVotes (df.filter (fun c => c.election_id.isSome))
      = computeTransferFromVotes df := by
  have hmax : ∀ eid, maxRound (df.filter (fun c => c.election_id.isSome)) eid
      = maxRound df eid := by
    intro eid
    unfold maxRound
    rw [electionRows_filterSome]
  have hcands : ∀ eid, candsOf (df.filter (fun c => c.election_id.isSome)) eid
      = candsOf df eid := by
    intro eid
    unfold candsOf
    rw [electionRows_filterSome]
  have hblock : ∀ eid cid,
      candidateRows (df.filter (fun c => c.election_id.isSome)) eid cid
        = candidateRows df eid cid := by
    intro eid cid
    rw [candidateRows_eq, candidateRows_eq, hmax]
    apply List.map_congr_left
    intro r _
    simp only [lookupVotes_filterSome]
  unfold computeTransferFromVotes
  rw [electionsOf_filterSome]
  apply List.flatMap_congr
  intro eid _
  rw [hcands]
  apply List.flatMap_congr
  intro cid _
  rw [hblock]

/-- C9 counterexample: a round-summary record whose election id (2) has no
entry in the mapping (only 1 -> 101) is not dropped by the id
standardization — it stays in the cleaned rounds collection with a null id,
and nothing later in `clean_and_standardize_data` touches the rounds
collection again. -/
theorem claim_c9_counterexample :
    standardizeRounds [(1, 101)] [⟨2, 1, 50⟩]
      = [(⟨none, 1, 50⟩ : RoundRecM)] ∧
    (standardizeRounds [(1, 101)] [⟨2, 1, 50⟩]).length = 1 := ⟨rfl, rfl⟩

/-- C9 amended: candidate rows whose election id maps to NaN are invisible to
the grid reconstruction (deleting them does not change its output, since the
NaN group key is dropped), so they reach no cleaned candidate output; but
round-summary rows are merely rewritten in place — an unmapped one stays in
the cleaned rounds collection with a null id. -/
theorem claim_c9_amended (m : List (Nat × Nat)) (cs : List RawCandPre)
    (rs : List RoundRecRaw) :
    computeTransferFromVotes
        ((standardizeCandidates m cs).filter (fun c => c.election_id.isSome))
      = computeTransferFromVotes (standardizeCandidates m cs) ∧
    (standardizeRounds m rs).length = rs.length ∧
    (∀ x ∈ rs, mapElectionId m x.election_id = none →
      (⟨none, x.round, x.total_votes⟩ : RoundRecM) ∈ standardizeRounds m rs) := by
  refine ⟨computeTransfer_filterSome _, List.length_map _ _, ?_⟩
  intro x hx hmap
  unfold standardizeRounds
  apply List.mem_map.mpr
  refine ⟨x, hx, ?_⟩
  rw [hmap]

theorem claim_c9_amended_witness :
    computeTransferFromVotes
        ((standardizeCandidates [(1, 101)] [⟨2, 20, 1, some 5, ""⟩]).filter
          (fun c => c.election_id.isSome))
      = computeTransferFromVotes (standardizeCandidates [(1, 101)] [⟨2, 20, 1, some 5, ""⟩]) ∧
    ((⟨2, 1, 50⟩ : RoundRecRaw) ∈ ([⟨2, 1, 50⟩] : List RoundRecRaw) ∧
      mapElectionId [(1, 101)] 2 = none ∧
      (⟨none, 1, 50⟩ : RoundRecM) ∈ standardizeRounds [(1, 101)] [⟨2, 1, 50⟩]) :=
  ⟨(claim_c9_amended [(1, 101)] [⟨2, 20, 1, some 5, ""⟩] [⟨2, 1, 50⟩]).1,
   by decide, by decide,
   (claim_c9_amended [(1, 101)] [⟨2, 20, 1, some 5, ""⟩] [⟨2, 1, 50⟩]).2.2
     ⟨2, 1, 50⟩ (by decide) (by decide)⟩

-- ### candidate-table schema through the pipeline (column-level model)

/-- The documented raw candidate-table columns (data_utils.py line 74). -/
def rawCandidateCols : List String :=
  ["election_id", "candidate_id", "name", "round", "votes", "percentage", "transfer"]

/-- Column effect of `_clean_candidates` (lines 241-263): coercion and dropna
keep the schema; when a `transfer` column exists, `transfer_original` is added
("keep original for comparison").  `_standardize_election_ids` rewrites the id
column in place and changes no schema. -/
def cleanCandidatesCols (cols : List String) : List String :=
  if "transfer" ∈ cols then cols ++ ["transfer_original"] else cols

/-- Column effect of `compute_transfer_from_votes` (lines 99-116): the left
merge of the dense grid with `df[cols_to_keep]` keeps only the three key
columns plus votes, name, percentage — every other input column, including
`transfer_original` and `transfer`, is dropped — and the new transfer column
is appended.  `none` models the KeyError raised when a `cols_to_keep` column
is absent from the input. -/
def computeTransferCols (cols : List String) (colname : String) : Option (List String) :=
  if ["election_id", "candidate_id", "round", "votes", "name", "percentage"].all
      (fun c => decide (c ∈ cols)) then
    some ["election_id", "candidate_id", "round", "votes", "name", "percentage", colname]
  else none

/-- Column effect of `_add_candidate_status`: adds `status`. -/
def addStatusCols (cols : List String) : List String := cols ++ ["status"]

/-- The candidate-table schema after the whole `clean_and_standardize_data`
pipeline (clean, standardize ids, compute transfer, add status). -/
def pipelineCandidateCols (raw : List String) : Option (List String) :=
  (computeTransferCols (cleanCandidatesCols raw) "transfer_calc").map addStatusCols

/-- C5, pipeline at the failing input: `_clean_candidates` does add
`transfer_original` to the standard raw schema, but the merge inside
`compute_transfer_from_votes` drops it, so the cleaned candidate output has
exactly the key columns, votes, name, percentage, transfer_calc and status —
`transfer_original` is not retained (and a fortiori never used downstream). -/
theorem claim_c5_transfer_original_dropped :
    "transfer_original" ∈ cleanCandidatesCols rawCandidateCols ∧
    pipelineCandidateCols rawCandidateCols
      = some ["election_id", "candidate_id", "round", "votes", "name", "percentage",
              "transfer_calc", "status"] ∧
    "transfer_original" ∉ ["election_id", "candidate_id", "round", "votes", "name",
              "percentage", "transfer_calc", "status"] := by
  refine ⟨by decide, by decide, by decide⟩

-- ### the pipeline establishes the hypotheses used above

/-- Every reconstructed row has a round of at least 1 (grid rounds come from
`range(1, rmax+1)`), so the round hypothesis of the transfer-balance rule
holds of pipeline data. -/
theorem computeTransfer_round_ge_one (df : List RawRec) :
    ∀ o ∈ computeTransferFromVotes df, 1 ≤ o.round := by
  intro o ho
  rcases List.mem_flatMap.mp ho with ⟨eid, _, hin⟩
  rcases List.mem_flatMap.mp hin with ⟨cid, _, hmem⟩
  exact (mem_candidateRows hmem).2.2.1

/-- The reconstructed grid satisfies the composite-key uniqueness used as the
hypothesis of the status-derivation claim: distinct elections, distinct
candidates and distinct grid rounds determine each row. -/
theorem computeTransfer_keyUnique (df : List RawRec) :
    ∀ o1 ∈ computeTransferFromVotes df, ∀ o2 ∈ computeTransferFromVotes df,
      o1.election_id = o2.election_id → o1.candidate_id = o2.candidate_id →
        o1.round = o2.round → o1 = o2 := by
  intro o1 h1 o2 h2 he hc hr
  rcases List.mem_flatMap.mp h1 with ⟨e1, _, hin1⟩
  rcases List.mem_flatMap.mp hin1 with ⟨c1, _, hm1⟩
  rcases List.mem_flatMap.mp h2 with ⟨e2, _, hin2⟩
  rcases List.mem_flatMap.mp hin2 with ⟨c2, _, hm2⟩
  rw [candidateRows_eq] at hm1 hm2
  rcases List.mem_map.mp hm1 with ⟨r1, _, rfl⟩
  rcases List.mem_map.mp hm2 with ⟨r2, _, rfl⟩
  have he' : e1 = e2 := he
  have hc' : c1 = c2 := hc
  have hr' : r1 = r2 := hr
  subst he' hc' hr'
  rfl

/-- `_add_candidate_status` keeps every row's round, so the round hypothesis
transfers to the status-bearing records the validators consume. -/
theorem addStatus_round_ge_one (df : List OutRec) (hdf : ∀ o ∈ df, 1 ≤ o.round) :
    ∀ s ∈ addCandidateStatus df, 1 ≤ s.round := by
  intro s hs
  rcases List.mem_map.mp hs with ⟨c, hc, rfl⟩
  exact hdf c hc
